import Mathlib

/-!
A shallow embedding of the data-reshaping script in src/sheetRearranger.js.

The script reads the active sheet as a 2D array of cell values, locates the
boundary between fixed columns and repeating (QuestionNum, Mark, MaxMark)
triplets, collects the distinct question identifiers with their max marks
(first occurrence wins), rebuilds every data row in catalog order, writes a
two-header-row table to a destination sheet and derives per-column
conditional-formatting rules.

Pure computations are embedded as Lean functions over lists of cells; the
calls into the spreadsheet host (alerts, sheet creation and clearing, bulk
writes, rule replacement) are embedded as an ordered trace of effects, so
that detection order and destination mutation can be reasoned about.
Host string builtins (toString, trim, toLowerCase, includes, parseFloat)
are modelled explicitly so every definition evaluates by kernel reduction.
-/

namespace Wjec

/-- A spreadsheet cell value as the host getValues call returns it: a string
or a number (the input surface is mixed string/number cells, an empty cell
reading as the empty string). Numbers are modelled as rationals. -/
inductive Cell where
  | str (s : String)
  | num (q : ℚ)
deriving DecidableEq

/-- Model of the JavaScript toString conversion of a cell value. Strings are
unchanged; a number renders as its decimal digits. The claims only need the
rendering of numbers to be injective, free of whitespace and nonempty, which
the library rendering of rationals satisfies. -/
def Cell.toStr : Cell → String
  | Cell.str s => s
  | Cell.num q => toString q

/-- JavaScript truthiness of a cell value: the empty string and the number
zero are falsy, every other string or number is truthy. -/
def Cell.truthy : Cell → Bool
  | Cell.str s => decide (s ≠ "")
  | Cell.num q => decide (q ≠ 0)

/-- Model of the toLowerCase host function on one character (ASCII case
mapping, which covers every comparison the program makes). -/
def jsToLowerChar (c : Char) : Char :=
  if 65 ≤ c.toNat ∧ c.toNat ≤ 90 then Char.ofNat (c.toNat + 32) else c

/-- Model of the toLowerCase host function. -/
def jsToLower (s : String) : String :=
  ⟨s.data.map jsToLowerChar⟩

/-- Whitespace characters removed by the trim host function. -/
def jsIsSpace (c : Char) : Bool :=
  c = ' ' || c = '\t' || c = '\n' || c = '\r'

/-- Model of the trim host function: drop leading and trailing whitespace. -/
def jsTrim (s : String) : String :=
  ⟨((s.data.dropWhile jsIsSpace).reverse.dropWhile jsIsSpace).reverse⟩

/-- Model of the includes host function: does pat occur as a contiguous
substring of s. -/
def strIncludes (s pat : String) : Bool :=
  (List.range (s.data.length + 1)).any (fun i => pat.data.isPrefixOf (s.data.drop i))

/-- Digit run to natural number, for the parseFloat model. -/
def digitsToNat (ds : List Char) : Nat :=
  ds.foldl (fun n c => n * 10 + (c.toNat - 48)) 0

/-- Model of the parseFloat host function on a string: skip leading
whitespace, an optional sign, then a decimal digit run with an optional
fractional part; none when no digit is consumed (NaN). Exponent suffixes are
not modelled; the claims never depend on them. -/
def jsParseFloat (s : String) : Option ℚ :=
  let cs := s.data.dropWhile jsIsSpace
  let signed : ℚ × List Char :=
    match cs with
    | '-' :: rest => (-1, rest)
    | '+' :: rest => (1, rest)
    | _ => (1, cs)
  let intDigits := signed.2.takeWhile Char.isDigit
  let afterInt := signed.2.dropWhile Char.isDigit
  let fracDigits : List Char :=
    match afterInt with
    | '.' :: r => r.takeWhile Char.isDigit
    | _ => []
  if intDigits.isEmpty && fracDigits.isEmpty then none
  else some (signed.1 *
    ((digitsToNat intDigits : ℚ) + (digitsToNat fracDigits : ℚ) / ((10 : ℚ) ^ fracDigits.length)))

/-- parseFloat applied to a cell value: a numeric cell parses to its own
number (the host round-trips numbers through their decimal rendering), a
string cell is parsed as text. -/
def parseFloatCell : Cell → Option ℚ
  | Cell.num q => some q
  | Cell.str s => jsParseFloat s

/-- The header test of findFirstQuestionNumColumn, line 46 of the source:
the cell, as a string, trimmed then lowercased, equals questionnum. -/
def isQuestionNumHeader (c : Cell) : Bool :=
  jsToLower (jsTrim c.toStr) == "questionnum"

/-- Index of the first list entry satisfying p, none when no entry does:
the loop of findFirstQuestionNumColumn, lines 45 to 50 of the source. -/
def findFirstIdx (p : Cell → Bool) : List Cell → Option Nat
  | [] => none
  | c :: rest => if p c then some 0 else (findFirstIdx p rest).map (fun i => i + 1)

/-- findFirstQuestionNumColumn, lines 44 to 51 of the source (returning none
in place of -1). -/
def findFirstQuestionNumColumn (headers : List Cell) : Option Nat :=
  findFirstIdx isQuestionNumHeader headers

/-- The row-skip test used by both data passes, lines 84 to 87 and 140 to
143 of the source: the first cell, as a string, trimmed and lowercased,
contains the substring max marks or is empty. -/
def isSkippedRow (row : List Cell) : Bool :=
  let firstCell := jsToLower (jsTrim (row.getD 0 (Cell.str "")).toStr)
  strIncludes firstCell "max marks" || firstCell == ""

/-- Modelled from the spec: the Skip Predicate sentence of section 3 (a data
row is excluded if its first fixed-column value, trimmed and lowercased, is
empty or contains the substring max marks), written from the wording of the
spec for comparison with the source predicate isSkippedRow. -/
def skipRowSpec (row : List Cell) : Bool :=
  let v := jsToLower (jsTrim (row.getD 0 (Cell.str "")).toStr)
  v == "" || strIncludes v "max marks"

/-- The triplet of cells read for triplet index t of a row, lines 90 to 96
and 152 to 157 of the source: columns fixedColumns + 3t, + 3t + 1, + 3t + 2
holding (questionId, mark, maxMark). -/
def tripletAt (row : List Cell) (fixedColumns t : Nat) : Cell × Cell × Cell :=
  (row.getD (fixedColumns + t * 3) (Cell.str ""),
   row.getD (fixedColumns + t * 3 + 1) (Cell.str ""),
   row.getD (fixedColumns + t * 3 + 2) (Cell.str ""))

/-- The triplet guard of lines 99 and 161 of the source: the question
identifier is truthy and its trimmed string form is nonempty. -/
def processesTriplet (qIdentifier : Cell) : Bool :=
  qIdentifier.truthy && jsTrim qIdentifier.toStr != ""

/-- One catalog insertion, lines 101 to 104 of the source: when the question
identifier (as a string key, as JavaScript objects key properties) is not yet
recorded, append it to the identifier list and record its max mark; a seen
identifier changes nothing. -/
def catalogPairStep (st : List Cell × List (String × Cell)) (trip : Cell × Cell × Cell) :
    List Cell × List (String × Cell) :=
  if (List.lookup trip.1.toStr st.2).isNone then
    (st.1 ++ [trip.1], st.2 ++ [(trip.1.toStr, trip.2.2)])
  else st

/-- The inner triplet loop of the catalog pass, lines 89 to 106 of the
source, folded over one retained row. -/
def catalogRowStep (fixedColumns tripletCount : Nat)
    (st : List Cell × List (String × Cell)) (row : List Cell) :
    List Cell × List (String × Cell) :=
  (List.range tripletCount).foldl
    (fun st t =>
      if processesTriplet (tripletAt row fixedColumns t).1 then
        catalogPairStep st (tripletAt row fixedColumns t)
      else st) st

/-- The catalog pass, lines 79 to 107 of the source: fold the rows after the
header, skipping rows the skip test excludes; the state is the ordered
identifier list and the identifier-to-max-mark map. -/
def buildCatalog (dataRows : List (List Cell)) (fixedColumns tripletCount : Nat) :
    List Cell × List (String × Cell) :=
  dataRows.foldl
    (fun st row =>
      if isSkippedRow row then st else catalogRowStep fixedColumns tripletCount st row)
    ([], [])

/-- The triplets of one row that pass the triplet guard, in triplet order:
the processed (questionId, mark, maxMark) readings of that row. -/
def rowTripletScan (fixedColumns tripletCount : Nat) (row : List Cell) :
    List (Cell × Cell × Cell) :=
  (List.range tripletCount).filterMap
    (fun t =>
      if processesTriplet (tripletAt row fixedColumns t).1 then
        some (tripletAt row fixedColumns t)
      else none)

/-- The full (row, triplet) scan over retained rows: rows top to bottom,
triplets left to right within each row. -/
def tripletScan (dataRows : List (List Cell)) (fixedColumns tripletCount : Nat) :
    List (Cell × Cell × Cell) :=
  (dataRows.filter (fun row => !isSkippedRow row)).flatMap
    (rowTripletScan fixedColumns tripletCount)

/-- JavaScript object property assignment on a string-keyed map: overwrite
the recorded value when the key is present, append the pair otherwise. -/
def assocSet (m : List (String × Cell)) (k : String) (v : Cell) : List (String × Cell) :=
  if (List.lookup k m).isSome then
    m.map (fun p => if p.1 = k then (k, v) else p)
  else m ++ [(k, v)]

/-- The per-row marks map of the transposer, lines 149 to 164 of the source:
for every processed triplet, record its mark under the identifier key (a
later duplicate within the row overwrites). -/
def buildMarksMap (row : List Cell) (fixedColumns tripletCount : Nat) :
    List (String × Cell) :=
  (List.range tripletCount).foldl
    (fun m t =>
      if processesTriplet (tripletAt row fixedColumns t).1 then
        assocSet m (tripletAt row fixedColumns t).1.toStr (tripletAt row fixedColumns t).2.1
      else m) []

/-- One transposed output row, lines 146 to 170 of the source: the fixed
column values unchanged, then, for each catalog identifier in order, the mark
this row recorded for it, or the empty string when it recorded none. -/
def transposeRow (questionIdentifiers : List Cell) (fixedColumns tripletCount : Nat)
    (row : List Cell) : List Cell :=
  row.take fixedColumns ++
    questionIdentifiers.map (fun q =>
      (List.lookup q.toStr (buildMarksMap row fixedColumns tripletCount)).getD (Cell.str ""))

/-- The output loop over data rows, lines 136 to 174 of the source: skip the
rows the skip test excludes, push the transposed row for every other row. -/
def rearrangeDataRows (dataRows : List (List Cell)) (fixedColumns tripletCount : Nat)
    (questionIdentifiers : List Cell) : List (List Cell) :=
  dataRows.foldl
    (fun outputRows row =>
      if isSkippedRow row then outputRows
      else outputRows ++ [transposeRow questionIdentifiers fixedColumns tripletCount row])
    []

/-- The assembled output table, lines 118 to 174 of the source: header row
one is the fixed headers followed by the catalog identifiers, header row two
is one blank per fixed column followed by the recorded max marks, then the
transposed data rows. -/
def rearrangeOutputRows (sourceData : List (List Cell)) (fixedColumns tripletCount : Nat) :
    List (List Cell) :=
  let catalog := buildCatalog sourceData.tail fixedColumns tripletCount
  let questionIdentifiers := catalog.1
  let questionMaxMarks := catalog.2
  let headerRow := sourceData.getD 0 []
  let fixedHeaders := headerRow.take fixedColumns
  let headerRow1 := fixedHeaders ++ questionIdentifiers
  let headerRow2 := List.replicate fixedColumns (Cell.str "") ++
    questionIdentifiers.map (fun q => (List.lookup q.toStr questionMaxMarks).getD (Cell.str ""))
  headerRow1 :: headerRow2 ::
    rearrangeDataRows sourceData.tail fixedColumns tripletCount questionIdentifiers

/-- A conditional-formatting rule as applyConditionalFormatting builds it:
a three-stop gradient or a literal-text match, scoped to the rows firstRow
to lastRow of the 1-based column col. -/
inductive FormatRule where
  | gradient (col : Nat) (minVal midVal maxVal : ℚ) (firstRow lastRow : Nat)
  | textEq (col : Nat) (text : String) (firstRow lastRow : Nat)
deriving DecidableEq

/-- The column a rule is scoped to. -/
def FormatRule.col : FormatRule → Nat
  | FormatRule.gradient c _ _ _ _ _ => c
  | FormatRule.textEq c _ _ _ => c

/-- The body of the formatting loop for question column i, lines 228 to 262
of the source: read the max mark from header row two of the written table at
1-based column fixedColumns + 1 + i, parse it as a number; when it is not a
number or not positive, emit nothing; otherwise emit the gradient rule with
stops 0, half the max and the max, and the text rule for the literal N, both
over rows 3 to lastRow of that column. -/
def rulesForQuestion (table : List (List Cell)) (fixedColumns lastRow i : Nat) :
    List FormatRule :=
  let colIndex := fixedColumns + 1 + i
  let maxMark := (table.getD 1 []).getD (colIndex - 1) (Cell.str "")
  match parseFloatCell maxMark with
  | none => []
  | some numericMaxMark =>
    if numericMaxMark ≤ 0 then []
    else
      [FormatRule.gradient colIndex 0 (numericMaxMark / 2) numericMaxMark 3 lastRow,
       FormatRule.textEq colIndex "N" 3 lastRow]

/-- applyConditionalFormatting, lines 217 to 267 of the source: the rules of
every question column in order, over the written table whose last row number
is its length. -/
def applyConditionalFormatting (table : List (List Cell)) (fixedColumns questionCount : Nat) :
    List FormatRule :=
  let lastRow := table.length
  (List.range questionCount).foldl
    (fun rules i => rules ++ rulesForQuestion table fixedColumns lastRow i) []

/-- The distinct user-facing messages of the script, lines 32, 57, 68, 180
and 190 of the source. -/
inductive AlertMsg where
  | insufficientData
  | noQuestionNumHeader
  | notMultipleOf3
  | noValidDataRows
  | success
deriving DecidableEq, BEq

/-- One observable call into the spreadsheet host, in program order: an
alert dialog, the creation or clearing of the destination sheet (lines 110
to 116), the bulk value write (line 178), the replacement of the rule set
(line 266) and the column auto-resize (line 188). -/
inductive SheetEffect where
  | alert (msg : AlertMsg)
  | prepareOutputSheet
  | writeValues (rows : List (List Cell))
  | setFormatRules (rules : List FormatRule)
  | autoResizeColumns
deriving DecidableEq, BEq

/-- rearrangeData, lines 16 to 191 of the source, as the ordered trace of
host effects one invocation performs on a given source table. -/
def rearrangeData (sourceData : List (List Cell)) : List SheetEffect :=
  if sourceData.length < 2 then [SheetEffect.alert AlertMsg.insufficientData]
  else
    let headerRow := sourceData.getD 0 []
    match findFirstQuestionNumColumn headerRow with
    | none => [SheetEffect.alert AlertMsg.noQuestionNumHeader]
    | some fixedColumnsIndex =>
      let fixedColumns := fixedColumnsIndex
      let totalColumns := headerRow.length
      let remainingColumns := totalColumns - fixedColumns
      if remainingColumns % 3 ≠ 0 then [SheetEffect.alert AlertMsg.notMultipleOf3]
      else
        let tripletCount := remainingColumns / 3
        let questionIdentifiers := (buildCatalog sourceData.tail fixedColumns tripletCount).1
        let outputRows := rearrangeOutputRows sourceData fixedColumns tripletCount
        if outputRows.length > 0 then
          [SheetEffect.prepareOutputSheet,
           SheetEffect.writeValues outputRows,
           SheetEffect.setFormatRules
             (applyConditionalFormatting outputRows fixedColumns questionIdentifiers.length),
           SheetEffect.autoResizeColumns,
           SheetEffect.alert AlertMsg.success]
        else
          [SheetEffect.prepareOutputSheet, SheetEffect.alert AlertMsg.noValidDataRows]

/-- columnToLetter, lines 198 to 206 of the source. The loop sends a
positive column to (column - 1) / 26, so the starting value bounds the
iteration count; the first argument carries that bound, making the recursion
structural and the function kernel-computable. -/
def columnToLetterLoop : Nat → Nat → String
  | _, 0 => ""
  | 0, _ + 1 => ""
  | fuel + 1, n + 1 =>
    columnToLetterLoop fuel (n / 26) ++ String.singleton (Char.ofNat (n % 26 + 65))

/-- columnToLetter with the iteration bound instantiated: the column number
itself always suffices. -/
def columnToLetter (column : Nat) : String :=
  columnToLetterLoop column column

/-- The value a spreadsheet column name denotes in bijective base 26, with A
worth one through Z worth twenty-six: the specification-side inverse used to
state correctness of columnToLetter. -/
def letterValue (s : String) : Nat :=
  s.data.foldl (fun v c => v * 26 + (c.toNat - 64)) 0

/-- First occurrences in order: the identifiers of the scan with every
already-seen string key dropped, the specification-side description of the
catalog order. seen holds the keys recorded before the scan started. -/
def firstOccurrences (seen : String → Bool) : List (Cell × Cell × Cell) → List Cell
  | [] => []
  | trip :: rest =>
    if seen trip.1.toStr then firstOccurrences seen rest
    else trip.1 :: firstOccurrences (fun k => seen k || k == trip.1.toStr) rest

/-- A fold whose body skips the elements p accepts equals the fold over the
filtered list: the shape of both row loops, whose continue statement is the
skip test. -/
theorem foldl_skip_eq_filter_foldl {α σ : Type _} (p : α → Bool) (g : σ → α → σ) :
    ∀ (l : List α) (init : σ),
      l.foldl (fun st a => if p a then st else g st a) init =
        (l.filter (fun a => !p a)).foldl g init := by
  intro l
  induction l with
  | nil => intro init; rfl
  | cons a l ih =>
    intro init
    cases h : p a <;> simp [List.filter_cons, h, ih]

/-- A fold whose body acts only on elements the guard accepts equals the
fold over the guarded projections: the shape of both triplet loops. -/
theorem foldl_guard_eq_scan_foldl {α β σ : Type _} (p : α → Bool) (f : α → β) (g : σ → β → σ) :
    ∀ (l : List α) (init : σ),
      l.foldl (fun st a => if p a then g st (f a) else st) init =
        (l.filterMap (fun a => if p a then some (f a) else none)).foldl g init := by
  intro l
  induction l with
  | nil => intro init; rfl
  | cons a l ih =>
    intro init
    cases h : p a <;> simp [List.filterMap_cons, h, ih]

/-- Folding over a flattened list equals folding the per-element folds. -/
theorem flatMap_foldl {α β σ : Type _} (g : σ → β → σ) (f : α → List β) :
    ∀ (l : List α) (init : σ),
      (l.flatMap f).foldl g init = l.foldl (fun st a => (f a).foldl g st) init := by
  intro l
  induction l with
  | nil => intro init; rfl
  | cons a l ih =>
    intro init
    simp [List.foldl_append, ih]

/-- A push-style fold that skips the elements p accepts builds the map of
the filtered list: the shape of the output-row loop. -/
theorem foldl_push_eq_filter_map {α β : Type _} (p : α → Bool) (f : α → β) :
    ∀ (l : List α) (init : List β),
      l.foldl (fun out a => if p a then out else out ++ [f a]) init =
        init ++ (l.filter (fun a => !p a)).map f := by
  intro l
  induction l with
  | nil => intro init; simp
  | cons a l ih =>
    intro init
    cases h : p a <;> simp [List.filter_cons, h, ih]

/-- An append-style fold builds the flattened list of contributions: the
shape of the formatting loop. -/
theorem foldl_append_eq_flatMap {α β : Type _} (f : α → List β) :
    ∀ (l : List α) (init : List β),
      l.foldl (fun acc a => acc ++ f a) init = init ++ l.flatMap f := by
  intro l
  induction l with
  | nil => intro init; simp
  | cons a l ih =>
    intro init
    simp [ih]

theorem optOr_right_none {α : Type _} (o : Option α) : o.or none = o := by
  cases o <;> rfl

/-- Association lookup distributes over append, preferring the left list. -/
theorem lookup_append {β : Type _} (k : String) :
    ∀ (m₁ m₂ : List (String × β)),
      List.lookup k (m₁ ++ m₂) = (List.lookup k m₁).or (List.lookup k m₂) := by
  intro m₁ m₂
  induction m₁ with
  | nil => simp [List.lookup]
  | cons p rest ih =>
    simp only [List.cons_append, List.lookup]
    cases h : k == p.1 <;> simp [ih]

/-- The catalog row loop is the fold of the pair step over the processed
triplets of the row. -/
theorem catalogRowStep_eq_scan (fixedColumns tripletCount : Nat)
    (st : List Cell × List (String × Cell)) (row : List Cell) :
    catalogRowStep fixedColumns tripletCount st row =
      (rowTripletScan fixedColumns tripletCount row).foldl catalogPairStep st :=
  foldl_guard_eq_scan_foldl _ _ _ _ _

/-- The whole catalog pass is the fold of the pair step over the full
(row, triplet) scan. -/
theorem buildCatalog_eq_scan (dataRows : List (List Cell)) (fixedColumns tripletCount : Nat) :
    buildCatalog dataRows fixedColumns tripletCount =
      (tripletScan dataRows fixedColumns tripletCount).foldl catalogPairStep ([], []) := by
  suffices h : ∀ (rows : List (List Cell)) (st : List Cell × List (String × Cell)),
      rows.foldl
        (fun st row =>
          if isSkippedRow row then st else catalogRowStep fixedColumns tripletCount st row) st =
        (tripletScan rows fixedColumns tripletCount).foldl catalogPairStep st from
    h dataRows ([], [])
  intro rows
  induction rows with
  | nil => intro st; rfl
  | cons row rows ih =>
    intro st
    cases h : isSkippedRow row with
    | true => simp [tripletScan, List.filter_cons, h, ih, buildCatalog]
    | false =>
      simp only [List.foldl_cons, h, if_neg Bool.false_ne_true]
      rw [ih, catalogRowStep_eq_scan]
      simp [tripletScan, List.filter_cons, h, List.foldl_append]

/-- The per-row marks map is the fold of the map assignment over the
processed triplets of the row. -/
theorem buildMarksMap_eq_scan (row : List Cell) (fixedColumns tripletCount : Nat) :
    buildMarksMap row fixedColumns tripletCount =
      (rowTripletScan fixedColumns tripletCount row).foldl
        (fun m trip => assocSet m trip.1.toStr trip.2.1) [] :=
  foldl_guard_eq_scan_foldl
    (fun t => processesTriplet (tripletAt row fixedColumns t).1)
    (tripletAt row fixedColumns)
    (fun m trip => assocSet m trip.1.toStr trip.2.1)
    (List.range tripletCount) []

/-- The output-row loop maps the transposer over the retained rows. -/
theorem rearrangeDataRows_eq_filter_map (dataRows : List (List Cell))
    (fixedColumns tripletCount : Nat) (questionIdentifiers : List Cell) :
    rearrangeDataRows dataRows fixedColumns tripletCount questionIdentifiers =
      (dataRows.filter (fun row => !isSkippedRow row)).map
        (transposeRow questionIdentifiers fixedColumns tripletCount) := by
  simpa using
    foldl_push_eq_filter_map isSkippedRow
      (transposeRow questionIdentifiers fixedColumns tripletCount) dataRows []

/-- The recorded max mark of any key is the max mark of the first scan
triplet carrying that key: folding the pair step never overwrites. -/
theorem lookup_catalogFold (k : String) :
    ∀ (l : List (Cell × Cell × Cell)) (st : List Cell × List (String × Cell)),
      List.lookup k (l.foldl catalogPairStep st).2 =
        (List.lookup k st.2).or
          ((l.find? (fun trip => trip.1.toStr == k)).map (fun trip => trip.2.2)) := by
  intro l
  induction l with
  | nil => intro st; simp [optOr_right_none]
  | cons trip l ih =>
    intro st
    simp only [List.foldl_cons]
    rw [ih]
    cases hl : List.lookup trip.1.toStr st.2 with
    | some v =>
      have hstep : catalogPairStep st trip = st := by
        unfold catalogPairStep
        rw [hl]
        rfl
      rw [hstep]
      cases hk : trip.1.toStr == k with
      | true =>
        have hkeq : trip.1.toStr = k := by simpa using hk
        rw [← hkeq, hl]
        simp [List.find?, hk]
      | false => simp [List.find?, hk]
    | none =>
      have hstep : catalogPairStep st trip =
          (st.1 ++ [trip.1], st.2 ++ [(trip.1.toStr, trip.2.2)]) := by
        unfold catalogPairStep
        rw [hl]
        rfl
      rw [hstep]
      cases hk : trip.1.toStr == k with
      | true =>
        have hkeq : trip.1.toStr = k := by simpa using hk
        rw [lookup_append]
        rw [← hkeq, hl]
        simp [List.lookup, List.find?, hk]
      | false =>
        have hkne : ¬(k == trip.1.toStr) = true := by
          simp only [beq_iff_eq]
          intro heq
          simp [heq] at hk
        rw [lookup_append]
        simp only [List.lookup, List.find?, hk]
        have : (k == trip.1.toStr) = false := by simpa using hkne
        simp [this, optOr_right_none]

/-- The identifier list the pair-step fold builds is the first occurrences
of the scan, relative to the keys already recorded. -/
theorem ids_catalogFold :
    ∀ (l : List (Cell × Cell × Cell)) (st : List Cell × List (String × Cell)),
      (l.foldl catalogPairStep st).1 =
        st.1 ++ firstOccurrences (fun k => (List.lookup k st.2).isSome) l := by
  intro l
  induction l with
  | nil => intro st; simp [firstOccurrences]
  | cons trip l ih =>
    intro st
    simp only [List.foldl_cons, firstOccurrences]
    cases hl : List.lookup trip.1.toStr st.2 with
    | some v =>
      have hstep : catalogPairStep st trip = st := by
        unfold catalogPairStep
        rw [hl]
        rfl
      rw [hstep, ih]
      simp
    | none =>
      have hstep1 : (catalogPairStep st trip).1 = st.1 ++ [trip.1] := by
        unfold catalogPairStep
        rw [hl]
        rfl
      have hstep2 : (catalogPairStep st trip).2 = st.2 ++ [(trip.1.toStr, trip.2.2)] := by
        unfold catalogPairStep
        rw [hl]
        rfl
      have hpred : (fun k => (List.lookup k (st.2 ++ [(trip.1.toStr, trip.2.2)])).isSome) =
          (fun k => (List.lookup k st.2).isSome || k == trip.1.toStr) := by
        funext k
        rw [lookup_append]
        cases hk : List.lookup k st.2 with
        | some w => rfl
        | none =>
          simp only [List.lookup]
          cases hkk : k == trip.1.toStr <;> rfl
      rw [ih, hstep1, hstep2, hpred]
      simp

/-- Overwriting the value of a different key leaves a lookup unchanged. -/
theorem lookup_mapOverwrite_ne (key : String) (v : Cell) (k : String) (h : k ≠ key) :
    ∀ m : List (String × Cell),
      List.lookup k (m.map (fun p => if p.1 = key then (key, v) else p)) =
        List.lookup k m := by
  intro m
  induction m with
  | nil => rfl
  | cons p rest ih =>
    simp only [List.map_cons]
    by_cases hp : p.1 = key
    · rw [if_pos hp]
      have hk : (k == key) = false := by simpa using h
      have hk' : (k == p.1) = false := by rw [hp]; exact hk
      simp [List.lookup, hk, hk', ih]
    · rw [if_neg hp]
      simp only [List.lookup]
      cases hkk : k == p.1 <;> simp [ih]

/-- assocSet leaves the lookup of every other key unchanged. -/
theorem lookup_assocSet_ne (m : List (String × Cell)) (key k : String) (v : Cell)
    (h : k ≠ key) :
    List.lookup k (assocSet m key v) = List.lookup k m := by
  unfold assocSet
  by_cases hs : (List.lookup key m).isSome
  · rw [if_pos hs]
    exact lookup_mapOverwrite_ne key v k h m
  · rw [if_neg hs, lookup_append]
    have hk : (k == key) = false := by simpa using h
    simp [List.lookup, hk, optOr_right_none]

/-- A key no scan triplet carries is absent from the marks-map fold. -/
theorem lookup_marksFold_eq_none (k : String) :
    ∀ (l : List (Cell × Cell × Cell)) (m : List (String × Cell)),
      (∀ trip ∈ l, trip.1.toStr ≠ k) → List.lookup k m = none →
        List.lookup k (l.foldl (fun m trip => assocSet m trip.1.toStr trip.2.1) m) = none := by
  intro l
  induction l with
  | nil => intro m _ hm; simpa using hm
  | cons trip l ih =>
    intro m hall hm
    simp only [List.foldl_cons]
    refine ih _ (fun t ht => hall t (List.mem_cons_of_mem _ ht)) ?_
    rw [lookup_assocSet_ne _ _ _ _ (Ne.symm (hall trip (List.mem_cons_self _ _)))]
    exact hm

/-- A key absent from every processed triplet of a row is absent from that
row's marks map. -/
theorem lookup_buildMarksMap_eq_none (row : List Cell) (fixedColumns tripletCount : Nat)
    (k : String)
    (habsent : ∀ trip ∈ rowTripletScan fixedColumns tripletCount row, trip.1.toStr ≠ k) :
    List.lookup k (buildMarksMap row fixedColumns tripletCount) = none := by
  rw [buildMarksMap_eq_scan]
  exact lookup_marksFold_eq_none k _ [] habsent rfl

/-- findFirstIdx returns none exactly when no entry satisfies the test. -/
theorem findFirstIdx_eq_none_iff (p : Cell → Bool) :
    ∀ l : List Cell, findFirstIdx p l = none ↔ ∀ c ∈ l, p c = false := by
  intro l
  induction l with
  | nil => simp [findFirstIdx]
  | cons c rest ih =>
    cases hc : p c <;> simp [findFirstIdx, hc, ih]

/-- findFirstIdx returns some i exactly for the first index whose entry
satisfies the test: the entry at i passes and every earlier entry fails. -/
theorem findFirstIdx_eq_some_spec (p : Cell → Bool) :
    ∀ (l : List Cell) (i : Nat), findFirstIdx p l = some i →
      i < l.length ∧ p (l.getD i (Cell.str "")) = true ∧
        ∀ j, j < i → p (l.getD j (Cell.str "")) = false := by
  intro l
  induction l with
  | nil => intro i h; simp [findFirstIdx] at h
  | cons c rest ih =>
    intro i h
    cases hc : p c with
    | true =>
      simp [findFirstIdx, hc] at h
      subst h
      exact ⟨by simp, by simpa using hc, fun j hj => absurd hj (Nat.not_lt_zero j)⟩
    | false =>
      simp only [findFirstIdx, hc, if_neg Bool.false_ne_true, Option.map_eq_some'] at h
      obtain ⟨i', hi', rfl⟩ := h
      obtain ⟨h1, h2, h3⟩ := ih i' hi'
      refine ⟨by simpa using Nat.succ_lt_succ h1, by simpa using h2, ?_⟩
      intro j hj
      cases j with
      | zero => simpa using hc
      | succ j => simpa using h3 j (by omega)

/-- The formatting pass is the flattened per-column contributions. -/
theorem applyConditionalFormatting_eq_flatMap (table : List (List Cell))
    (fixedColumns questionCount : Nat) :
    applyConditionalFormatting table fixedColumns questionCount =
      (List.range questionCount).flatMap
        (rulesForQuestion table fixedColumns table.length) := by
  unfold applyConditionalFormatting
  simpa using
    foldl_append_eq_flatMap (rulesForQuestion table fixedColumns table.length)
      (List.range questionCount) []

/-- Filtering distributes over a flattened list. -/
theorem filter_flatMap {α β : Type _} (p : β → Bool) (f : α → List β) :
    ∀ l : List α, (l.flatMap f).filter p = l.flatMap (fun a => (f a).filter p) := by
  intro l
  induction l with
  | nil => rfl
  | cons a l ih => simp [List.filter_append, ih]

/-- A flattened list with every contribution empty is empty. -/
theorem flatMap_eq_nil_of {α β : Type _} (f : α → List β) :
    ∀ l : List α, (∀ a ∈ l, f a = []) → l.flatMap f = [] := by
  intro l
  induction l with
  | nil => intro _; rfl
  | cons a l ih =>
    intro h
    simp [h a (List.mem_cons_self _ _), ih (fun b hb => h b (List.mem_cons_of_mem _ hb))]

/-- Flattening over a range with a single nonempty contribution yields it. -/
theorem range_flatMap_single {β : Type _} (f : Nat → List β) :
    ∀ (n i : Nat), i < n → (∀ j, j < n → j ≠ i → f j = []) →
      (List.range n).flatMap f = f i := by
  intro n
  induction n with
  | zero => intro i hi; omega
  | succ n ih =>
    intro i hi hz
    rw [List.range_succ]
    by_cases hin : i = n
    · rw [List.flatMap_append,
        flatMap_eq_nil_of f (List.range n) (fun j hj => hz j (by
          have := List.mem_range.mp hj; omega) (by
          have := List.mem_range.mp hj; omega))]
      simp [hin]
    · rw [List.flatMap_append, ih i (by omega) (fun j hj hne => hz j (by omega) hne)]
      have hn : f n = [] := hz n (by omega) (fun h => hin h.symm)
      simp [hn]

/-- The rules a column contributes all carry that column index, so the
column filter keeps them all. -/
theorem filter_col_rulesForQuestion_self (table : List (List Cell))
    (fixedColumns lastRow i : Nat) :
    (rulesForQuestion table fixedColumns lastRow i).filter
        (fun r => r.col == fixedColumns + 1 + i) =
      rulesForQuestion table fixedColumns lastRow i := by
  simp only [rulesForQuestion]
  cases parseFloatCell ((table.getD 1 []).getD (fixedColumns + 1 + i - 1) (Cell.str "")) with
  | none => rfl
  | some m =>
    by_cases hm : m ≤ 0
    · simp [hm]
    · simp [hm, FormatRule.col]

/-- The rules a different column contributes never carry this column index,
so the column filter drops them all. -/
theorem filter_col_rulesForQuestion_other (table : List (List Cell))
    (fixedColumns lastRow i j : Nat) (h : j ≠ i) :
    (rulesForQuestion table fixedColumns lastRow j).filter
        (fun r => r.col == fixedColumns + 1 + i) = [] := by
  simp only [rulesForQuestion]
  have hcol : (fixedColumns + 1 + j == fixedColumns + 1 + i) = false := by
    simp only [beq_eq_false_iff_ne, ne_eq]
    omega
  cases parseFloatCell ((table.getD 1 []).getD (fixedColumns + 1 + j - 1) (Cell.str "")) with
  | none => rfl
  | some m =>
    by_cases hm : m ≤ 0
    · simp [hm]
    · simp [hm, FormatRule.col, hcol]

/-- Appending one character multiplies the accumulated value by 26 and adds
the value of the character. -/
theorem letterValue_append_singleton (s : String) (c : Char) :
    letterValue (s ++ String.singleton c) = letterValue s * 26 + (c.toNat - 64) := by
  unfold letterValue
  rw [String.data_append]
  have hc : (String.singleton c).data = [c] := rfl
  rw [hc, List.foldl_append]
  rfl

/-- The character code built by the loop round-trips through Char. -/
theorem toNat_ofNat_add65 (r : Nat) (h : r < 26) : (Char.ofNat (r + 65)).toNat = r + 65 := by
  interval_cases r <;> decide

/-- With enough fuel, the loop produces a name whose bijective base-26 value
is the column number. -/
theorem columnToLetterLoop_letterValue :
    ∀ (fuel n : Nat), n ≤ fuel → letterValue (columnToLetterLoop fuel n) = n := by
  intro fuel
  induction fuel with
  | zero =>
    intro n h
    have hn : n = 0 := by omega
    subst hn
    rfl
  | succ f ih =>
    intro n h
    cases n with
    | zero => rfl
    | succ m =>
      show letterValue (columnToLetterLoop f (m / 26) ++
        String.singleton (Char.ofNat (m % 26 + 65))) = m + 1
      rw [letterValue_append_singleton, ih (m / 26) (by omega),
        toNat_ofNat_add65 (m % 26) (Nat.mod_lt _ (by omega))]
      omega

/-- Every character the loop emits is an uppercase ASCII letter. -/
theorem columnToLetterLoop_chars :
    ∀ (fuel n : Nat), ∀ c ∈ (columnToLetterLoop fuel n).data, 65 ≤ c.toNat ∧ c.toNat ≤ 90 := by
  intro fuel
  induction fuel with
  | zero =>
    intro n c hc
    cases n with
    | zero => simp [columnToLetterLoop] at hc
    | succ m => simp [columnToLetterLoop] at hc
  | succ f ih =>
    intro n c hc
    cases n with
    | zero => simp [columnToLetterLoop] at hc
    | succ m =>
      rw [show columnToLetterLoop (f + 1) (m + 1) = columnToLetterLoop f (m / 26) ++
        String.singleton (Char.ofNat (m % 26 + 65)) from rfl, String.data_append] at hc
      rcases List.mem_append.mp hc with h1 | h2
      · exact ih (m / 26) c h1
      · have hcc : c = Char.ofNat (m % 26 + 65) := by
          have hd : (String.singleton (Char.ofNat (m % 26 + 65))).data =
            [Char.ofNat (m % 26 + 65)] := rfl
          rw [hd] at h2
          simpa using h2
        subst hcc
        rw [toNat_ofNat_add65 (m % 26) (Nat.mod_lt _ (by omega))]
        constructor <;> omega

/-- C10: for every column number n at least 1, columnToLetter n terminates
(it is a total function, the loop bounded by its own argument) and is the
bijective base-26 spreadsheet column name of n: 1 maps to A, 26 to Z, 27 to
AA, the name evaluates back to n under the base-26 letter value, every
character is an uppercase letter, and the function is injective. -/
theorem columnToLetter_bijective_base26 :
    columnToLetter 1 = "A" ∧ columnToLetter 26 = "Z" ∧ columnToLetter 27 = "AA" ∧
    (∀ n, letterValue (columnToLetter n) = n) ∧
    (∀ n, ∀ c ∈ (columnToLetter n).data, 65 ≤ c.toNat ∧ c.toNat ≤ 90) ∧
    (∀ m n, columnToLetter m = columnToLetter n → m = n) := by
  have hval : ∀ n, letterValue (columnToLetter n) = n := fun n =>
    columnToLetterLoop_letterValue n n (Nat.le_refl n)
  refine ⟨by decide, by decide, by decide, hval, ?_, ?_⟩
  · intro n c hc
    exact columnToLetterLoop_chars n n c hc
  · intro m n h
    have hmn := congrArg letterValue h
    rwa [hval, hval] at hmn

/-- The catalog max mark of any key is the max mark of the first processed
scan occurrence of that key. -/
theorem lookup_buildCatalog (dataRows : List (List Cell)) (fixedColumns tripletCount : Nat)
    (k : String) :
    List.lookup k (buildCatalog dataRows fixedColumns tripletCount).2 =
      ((tripletScan dataRows fixedColumns tripletCount).find?
        (fun trip => trip.1.toStr == k)).map (fun trip => trip.2.2) := by
  rw [buildCatalog_eq_scan, lookup_catalogFold]
  rfl

/-- The catalog identifier list is the first occurrences of the scan. -/
theorem ids_buildCatalog (dataRows : List (List Cell)) (fixedColumns tripletCount : Nat) :
    (buildCatalog dataRows fixedColumns tripletCount).1 =
      firstOccurrences (fun _ => false)
        (tripletScan dataRows fixedColumns tripletCount) := by
  rw [buildCatalog_eq_scan]
  have h := ids_catalogFold (tripletScan dataRows fixedColumns tripletCount) ([], [])
  simpa using h

/-- C1: the claim that a run in which every data row is excluded by the skip
predicate aborts with the EmptyResultError message and leaves the
destination untouched fails on the code. The output rows always include the
two header rows, so the no-valid-rows alert of line 180 is unreachable on
every input; on a source whose only data row is skipped, the run instead
creates or clears the destination, writes the two header rows, replaces the
rule set and reports success. -/
theorem noValidDataRows_alert_unreachable :
    (∀ sourceData : List (List Cell),
      ((rearrangeData sourceData).all
        (fun e => e != SheetEffect.alert AlertMsg.noValidDataRows)) = true) ∧
    rearrangeData
        [[Cell.str "ID", Cell.str "QuestionNum", Cell.str "Mark", Cell.str "MaxMark"],
         [Cell.str "Max marks", Cell.str "", Cell.str "", Cell.str ""]] =
      [SheetEffect.prepareOutputSheet,
       SheetEffect.writeValues [[Cell.str "ID"], [Cell.str ""]],
       SheetEffect.setFormatRules [],
       SheetEffect.autoResizeColumns,
       SheetEffect.alert AlertMsg.success] := by
  constructor
  · intro sourceData
    simp only [rearrangeData]
    split
    · rfl
    · split
      · rfl
      · split
        · rfl
        · split
          · rfl
          · next h => exact absurd (Nat.succ_pos _) h
  · decide

/-- C2: over a rectangular source table, every output data row the
transposer produces has exactly fixedCount plus catalog-size cells, however
many triplets of that source row carried a nonblank question identifier. -/
theorem output_row_length_invariant (dataRows : List (List Cell))
    (questionIdentifiers : List Cell) (fixedColumns tripletCount totalColumns : Nat)
    (hrect : ∀ row ∈ dataRows, row.length = totalColumns)
    (hfix : fixedColumns ≤ totalColumns) :
    ∀ outRow ∈ rearrangeDataRows dataRows fixedColumns tripletCount questionIdentifiers,
      outRow.length = fixedColumns + questionIdentifiers.length := by
  intro outRow hmem
  rw [rearrangeDataRows_eq_filter_map] at hmem
  obtain ⟨row, hrow, rfl⟩ := List.mem_map.mp hmem
  have hlen : row.length = totalColumns := hrect row (List.mem_of_mem_filter hrow)
  unfold transposeRow
  rw [List.length_append, List.length_take, List.length_map, hlen, Nat.min_eq_left hfix]

theorem output_row_length_invariant_witness :
    (transposeRow [Cell.str "Q1", Cell.str "Q2"] 1 1
      [Cell.str "s1", Cell.str "Q1", Cell.num 5, Cell.num 10]).length = 1 + 2 :=
  output_row_length_invariant
    [[Cell.str "s1", Cell.str "Q1", Cell.num 5, Cell.num 10]]
    [Cell.str "Q1", Cell.str "Q2"] 1 1 4 (by decide) (by decide)
    (transposeRow [Cell.str "Q1", Cell.str "Q2"] 1 1
      [Cell.str "s1", Cell.str "Q1", Cell.num 5, Cell.num 10])
    (by decide)

/-- C3: the max mark the catalog records for every question identifier is
the maxMark value of that identifier's first occurrence in the (row,
triplet) scan over retained rows, later occurrences never overwriting it;
and header row two of the output carries exactly those first-occurrence
values after its fixed-column blanks. -/
theorem maxMark_first_occurrence_authoritative :
    (∀ (dataRows : List (List Cell)) (fixedColumns tripletCount : Nat) (k : String),
      List.lookup k (buildCatalog dataRows fixedColumns tripletCount).2 =
        ((tripletScan dataRows fixedColumns tripletCount).find?
          (fun trip => trip.1.toStr == k)).map (fun trip => trip.2.2)) ∧
    (∀ (sourceData : List (List Cell)) (fixedColumns tripletCount : Nat),
      ((rearrangeOutputRows sourceData fixedColumns tripletCount).getD 1 []).drop
          fixedColumns =
        (buildCatalog sourceData.tail fixedColumns tripletCount).1.map (fun q =>
          (((tripletScan sourceData.tail fixedColumns tripletCount).find?
            (fun trip => trip.1.toStr == q.toStr)).map (fun trip => trip.2.2)).getD
            (Cell.str ""))) := by
  constructor
  · exact lookup_buildCatalog
  · intro sourceData fixedColumns tripletCount
    have hrow2 : (rearrangeOutputRows sourceData fixedColumns tripletCount).getD 1 [] =
        List.replicate fixedColumns (Cell.str "") ++
          (buildCatalog sourceData.tail fixedColumns tripletCount).1.map (fun q =>
            (List.lookup q.toStr
              (buildCatalog sourceData.tail fixedColumns tripletCount).2).getD
              (Cell.str "")) := rfl
    rw [hrow2,
      List.drop_left' (List.length_replicate fixedColumns (Cell.str ""))]
    have hfun : (fun q : Cell =>
        (List.lookup q.toStr
          (buildCatalog sourceData.tail fixedColumns tripletCount).2).getD (Cell.str "")) =
        (fun q : Cell =>
          (((tripletScan sourceData.tail fixedColumns tripletCount).find?
            (fun trip => trip.1.toStr == q.toStr)).map (fun trip => trip.2.2)).getD
            (Cell.str "")) := by
      funext q
      rw [lookup_buildCatalog]
    rw [hfun]

/-- C4: the question identifiers appear as output columns, and in the
catalog, exactly in their order of first appearance over the scan that
visits retained rows top to bottom and triplets left to right. -/
theorem question_columns_follow_first_appearance (sourceData : List (List Cell))
    (fixedColumns tripletCount : Nat)
    (hfix : fixedColumns ≤ (sourceData.getD 0 []).length) :
    ((rearrangeOutputRows sourceData fixedColumns tripletCount).getD 0 []).drop
        fixedColumns =
      firstOccurrences (fun _ => false)
        (tripletScan sourceData.tail fixedColumns tripletCount) ∧
    (buildCatalog sourceData.tail fixedColumns tripletCount).1 =
      firstOccurrences (fun _ => false)
        (tripletScan sourceData.tail fixedColumns tripletCount) := by
  have hids := ids_buildCatalog sourceData.tail fixedColumns tripletCount
  refine ⟨?_, hids⟩
  have hrow1 : (rearrangeOutputRows sourceData fixedColumns tripletCount).getD 0 [] =
      (sourceData.getD 0 []).take fixedColumns ++
        (buildCatalog sourceData.tail fixedColumns tripletCount).1 := rfl
  have htake : ((sourceData.getD 0 []).take fixedColumns).length = fixedColumns := by
    rw [List.length_take]
    exact Nat.min_eq_left hfix
  rw [hrow1, List.drop_left' htake, hids]

theorem question_columns_follow_first_appearance_witness :
    ((rearrangeOutputRows
        [[Cell.str "ID", Cell.str "QuestionNum", Cell.str "Mark", Cell.str "MaxMark",
          Cell.str "QuestionNum", Cell.str "Mark", Cell.str "MaxMark"],
         [Cell.str "s1", Cell.str "Q2", Cell.num 1, Cell.num 2,
          Cell.str "Q1", Cell.num 3, Cell.num 4],
         [Cell.str "s2", Cell.str "Q3", Cell.num 5, Cell.num 6,
          Cell.str "Q1", Cell.num 7, Cell.num 8]] 1 2).getD 0 []).drop 1 =
      firstOccurrences (fun _ => false)
        (tripletScan
          [[Cell.str "ID", Cell.str "QuestionNum", Cell.str "Mark", Cell.str "MaxMark",
            Cell.str "QuestionNum", Cell.str "Mark", Cell.str "MaxMark"],
           [Cell.str "s1", Cell.str "Q2", Cell.num 1, Cell.num 2,
            Cell.str "Q1", Cell.num 3, Cell.num 4],
           [Cell.str "s2", Cell.str "Q3", Cell.num 5, Cell.num 6,
            Cell.str "Q1", Cell.num 7, Cell.num 8]].tail 1 2) ∧
    (buildCatalog
        [[Cell.str "ID", Cell.str "QuestionNum", Cell.str "Mark", Cell.str "MaxMark",
          Cell.str "QuestionNum", Cell.str "Mark", Cell.str "MaxMark"],
         [Cell.str "s1", Cell.str "Q2", Cell.num 1, Cell.num 2,
          Cell.str "Q1", Cell.num 3, Cell.num 4],
         [Cell.str "s2", Cell.str "Q3", Cell.num 5, Cell.num 6,
          Cell.str "Q1", Cell.num 7, Cell.num 8]].tail 1 2).1 =
      firstOccurrences (fun _ => false)
        (tripletScan
          [[Cell.str "ID", Cell.str "QuestionNum", Cell.str "Mark", Cell.str "MaxMark",
            Cell.str "QuestionNum", Cell.str "Mark", Cell.str "MaxMark"],
           [Cell.str "s1", Cell.str "Q2", Cell.num 1, Cell.num 2,
            Cell.str "Q1", Cell.num 3, Cell.num 4],
           [Cell.str "s2", Cell.str "Q3", Cell.num 5, Cell.num 6,
            Cell.str "Q1", Cell.num 7, Cell.num 8]].tail 1 2) :=
  question_columns_follow_first_appearance
    [[Cell.str "ID", Cell.str "QuestionNum", Cell.str "Mark", Cell.str "MaxMark",
      Cell.str "QuestionNum", Cell.str "Mark", Cell.str "MaxMark"],
     [Cell.str "s1", Cell.str "Q2", Cell.num 1, Cell.num 2,
      Cell.str "Q1", Cell.num 3, Cell.num 4],
     [Cell.str "s2", Cell.str "Q3", Cell.num 5, Cell.num 6,
      Cell.str "Q1", Cell.num 7, Cell.num 8]] 1 2 (by decide)

/-- C5: for every retained row and catalog position whose identifier occurs
in none of that row's processed triplets, the corresponding output cell is
exactly the empty string. -/
theorem absent_identifier_yields_blank (row questionIdentifiers : List Cell)
    (fixedColumns tripletCount i : Nat)
    (hfix : fixedColumns ≤ row.length)
    (hi : i < questionIdentifiers.length)
    (habsent : ∀ trip ∈ rowTripletScan fixedColumns tripletCount row,
      trip.1.toStr ≠ (questionIdentifiers.get ⟨i, hi⟩).toStr) :
    (transposeRow questionIdentifiers fixedColumns tripletCount row).getD
      (fixedColumns + i) (Cell.str "X") = Cell.str "" := by
  have hnone : List.lookup (questionIdentifiers.get ⟨i, hi⟩).toStr
      (buildMarksMap row fixedColumns tripletCount) = none :=
    lookup_buildMarksMap_eq_none row fixedColumns tripletCount _ habsent
  unfold transposeRow
  have htake : (row.take fixedColumns).length = fixedColumns := by
    rw [List.length_take]
    exact Nat.min_eq_left hfix
  rw [List.getD_eq_getElem?_getD, List.getElem?_append_right (by omega), htake,
    Nat.add_sub_cancel_left, List.getElem?_map, List.getElem?_eq_getElem hi]
  simp only [Option.map_some', Option.getD_some, List.get_eq_getElem] at hnone ⊢
  rw [hnone]
  rfl

theorem absent_identifier_yields_blank_witness :
    (transposeRow [Cell.str "Q1", Cell.str "Q2"] 1 1
      [Cell.str "s1", Cell.str "Q1", Cell.num 5, Cell.num 10]).getD
      (1 + 1) (Cell.str "X") = Cell.str "" :=
  absent_identifier_yields_blank
    [Cell.str "s1", Cell.str "Q1", Cell.num 5, Cell.num 10]
    [Cell.str "Q1", Cell.str "Q2"] 1 1 1 (by decide) (by decide) (by decide)

/-- C6: with at least a header and one further row present, the run aborts
with one of the two layout alerts exactly when the header has no questionnum
cell or the remaining column count fails the multiple-of-three test (the
remainder is automatically positive when the marker is found), the abort
trace being that single alert and nothing else, so no output is produced;
and when the marker exists, the detected fixedCount is the index of the
first header cell whose trimmed, case-insensitive value is questionnum. -/
theorem layout_detection_contract (sourceData : List (List Cell))
    (h2 : 2 ≤ sourceData.length) :
    ((rearrangeData sourceData = [SheetEffect.alert AlertMsg.noQuestionNumHeader] ∨
      rearrangeData sourceData = [SheetEffect.alert AlertMsg.notMultipleOf3]) ↔
      (findFirstQuestionNumColumn (sourceData.getD 0 []) = none ∨
        ∃ fixedColumns,
          findFirstQuestionNumColumn (sourceData.getD 0 []) = some fixedColumns ∧
          ¬(0 < (sourceData.getD 0 []).length - fixedColumns ∧
            ((sourceData.getD 0 []).length - fixedColumns) % 3 = 0))) ∧
    (findFirstQuestionNumColumn (sourceData.getD 0 []) = none ↔
      ∀ c ∈ sourceData.getD 0 [], isQuestionNumHeader c = false) ∧
    (∀ fixedColumns,
      findFirstQuestionNumColumn (sourceData.getD 0 []) = some fixedColumns →
        fixedColumns < (sourceData.getD 0 []).length ∧
        isQuestionNumHeader ((sourceData.getD 0 []).getD fixedColumns (Cell.str "")) = true ∧
        ∀ j, j < fixedColumns →
          isQuestionNumHeader ((sourceData.getD 0 []).getD j (Cell.str "")) = false) := by
  refine ⟨?_, findFirstIdx_eq_none_iff _ _,
    fun fc h => findFirstIdx_eq_some_spec _ _ fc h⟩
  have hlt : ¬ sourceData.length < 2 := by omega
  cases hfind : findFirstQuestionNumColumn (sourceData.getD 0 []) with
  | none =>
    have htr : rearrangeData sourceData =
        [SheetEffect.alert AlertMsg.noQuestionNumHeader] := by
      simp only [rearrangeData, if_neg hlt, hfind]
    rw [htr]
    simp
  | some fc =>
    obtain ⟨hfc, hqn, hfirst⟩ := findFirstIdx_eq_some_spec _ _ fc hfind
    by_cases h3 : ((sourceData.getD 0 []).length - fc) % 3 = 0
    · have htr : rearrangeData sourceData =
          [SheetEffect.prepareOutputSheet,
           SheetEffect.writeValues (rearrangeOutputRows sourceData fc
             (((sourceData.getD 0 []).length - fc) / 3)),
           SheetEffect.setFormatRules
             (applyConditionalFormatting
               (rearrangeOutputRows sourceData fc
                 (((sourceData.getD 0 []).length - fc) / 3)) fc
               (buildCatalog sourceData.tail fc
                 (((sourceData.getD 0 []).length - fc) / 3)).1.length),
           SheetEffect.autoResizeColumns,
           SheetEffect.alert AlertMsg.success] := by
        simp only [rearrangeData, if_neg hlt, hfind]
        rw [if_neg (show ¬ ((sourceData.getD 0 []).length - fc) % 3 ≠ 0 from
          fun hh => hh h3)]
        rw [if_pos (show (rearrangeOutputRows sourceData fc
          (((sourceData.getD 0 []).length - fc) / 3)).length > 0 from by
            simp [rearrangeOutputRows])]
      rw [htr]
      constructor
      · intro hL
        exfalso
        rcases hL with hL | hL <;> simp at hL
      · intro hR
        exfalso
        rcases hR with hR | ⟨fc', heq, hno⟩
        · exact Option.noConfusion hR
        · injection heq with hh
          subst hh
          exact hno ⟨by omega, h3⟩
    · have htr : rearrangeData sourceData =
          [SheetEffect.alert AlertMsg.notMultipleOf3] := by
        simp only [rearrangeData, if_neg hlt, hfind]
        rw [if_pos h3]
      rw [htr]
      constructor
      · intro _
        exact Or.inr ⟨fc, rfl, fun hc => h3 hc.2⟩
      · intro _
        exact Or.inr rfl

theorem layout_detection_contract_witness :
    ((rearrangeData [[Cell.str "ID"], [Cell.str "x"]] =
        [SheetEffect.alert AlertMsg.noQuestionNumHeader] ∨
      rearrangeData [[Cell.str "ID"], [Cell.str "x"]] =
        [SheetEffect.alert AlertMsg.notMultipleOf3]) ↔
      (findFirstQuestionNumColumn ([[Cell.str "ID"], [Cell.str "x"]].getD 0 []) = none ∨
        ∃ fixedColumns,
          findFirstQuestionNumColumn ([[Cell.str "ID"], [Cell.str "x"]].getD 0 []) =
            some fixedColumns ∧
          ¬(0 < ([[Cell.str "ID"], [Cell.str "x"]].getD 0 []).length - fixedColumns ∧
            (([[Cell.str "ID"], [Cell.str "x"]].getD 0 []).length - fixedColumns) % 3 = 0))) ∧
    (findFirstQuestionNumColumn ([[Cell.str "ID"], [Cell.str "x"]].getD 0 []) = none ↔
      ∀ c ∈ [[Cell.str "ID"], [Cell.str "x"]].getD 0 [],
        isQuestionNumHeader c = false) ∧
    (∀ fixedColumns,
      findFirstQuestionNumColumn ([[Cell.str "ID"], [Cell.str "x"]].getD 0 []) =
          some fixedColumns →
        fixedColumns < ([[Cell.str "ID"], [Cell.str "x"]].getD 0 []).length ∧
        isQuestionNumHeader
          (([[Cell.str "ID"], [Cell.str "x"]].getD 0 []).getD fixedColumns
            (Cell.str "")) = true ∧
        ∀ j, j < fixedColumns →
          isQuestionNumHeader
            (([[Cell.str "ID"], [Cell.str "x"]].getD 0 []).getD j (Cell.str "")) = false) :=
  layout_detection_contract [[Cell.str "ID"], [Cell.str "x"]] (by decide)

/-- C7: the two passes use the same row predicate, that predicate matches
the spec wording (first cell trimmed and lowercased is empty or contains max
marks), and both the catalog and the output are exactly the contributions of
the rows the predicate retains: a skipped row contributes to neither pass,
every other data row contributes to both. -/
theorem skip_predicate_governs_both_passes :
    (∀ row, isSkippedRow row = skipRowSpec row) ∧
    (∀ (dataRows : List (List Cell)) (fixedColumns tripletCount : Nat),
      buildCatalog dataRows fixedColumns tripletCount =
        buildCatalog (dataRows.filter (fun row => !skipRowSpec row))
          fixedColumns tripletCount) ∧
    (∀ (dataRows : List (List Cell)) (fixedColumns tripletCount : Nat)
        (questionIdentifiers : List Cell),
      rearrangeDataRows dataRows fixedColumns tripletCount questionIdentifiers =
        (dataRows.filter (fun row => !skipRowSpec row)).map
          (transposeRow questionIdentifiers fixedColumns tripletCount)) := by
  have hpred : ∀ row, isSkippedRow row = skipRowSpec row := by
    intro row
    simp [isSkippedRow, skipRowSpec, Bool.or_comm]
  have hfun : isSkippedRow = skipRowSpec := funext hpred
  refine ⟨hpred, ?_, ?_⟩
  · intro dataRows fixedColumns tripletCount
    rw [buildCatalog_eq_scan, buildCatalog_eq_scan]
    unfold tripletScan
    rw [← hfun, List.filter_filter]
    simp
  · intro dataRows fixedColumns tripletCount questionIdentifiers
    rw [rearrangeDataRows_eq_filter_map, hfun]

/-- C8: for a question column whose header-row-two max mark parses to a
positive number M, the emitted rule set holds exactly one gradient rule for
that column, with stops 0, M over 2 and M, and one text-equals-N rule, both
scoped to rows 3 through the last written row of that column only; for a
column whose max mark does not parse or is not positive, no rule of either
kind is emitted for that column and no error arises. -/
theorem formatting_rules_per_question_column (table : List (List Cell))
    (fixedColumns questionCount i : Nat) (hi : i < questionCount) :
    (applyConditionalFormatting table fixedColumns questionCount).filter
        (fun r => r.col == fixedColumns + 1 + i) =
      (match parseFloatCell ((table.getD 1 []).getD (fixedColumns + i) (Cell.str "")) with
        | none => []
        | some m =>
          if m ≤ 0 then []
          else
            [FormatRule.gradient (fixedColumns + 1 + i) 0 (m / 2) m 3 table.length,
             FormatRule.textEq (fixedColumns + 1 + i) "N" 3 table.length]) := by
  rw [applyConditionalFormatting_eq_flatMap, filter_flatMap,
    range_flatMap_single _ questionCount i hi
      (fun j hj hne =>
        filter_col_rulesForQuestion_other table fixedColumns table.length i j hne),
    filter_col_rulesForQuestion_self]
  simp only [rulesForQuestion]
  rw [show fixedColumns + 1 + i - 1 = fixedColumns + i from by omega]

theorem formatting_rules_per_question_column_witness :
    (applyConditionalFormatting
        [[Cell.str "ID", Cell.str "Q1"], [Cell.str "", Cell.num 7],
         [Cell.str "s1", Cell.num 3]] 1 1).filter (fun r => r.col == 1 + 1 + 0) =
      (match parseFloatCell
          (([[Cell.str "ID", Cell.str "Q1"], [Cell.str "", Cell.num 7],
             [Cell.str "s1", Cell.num 3]].getD 1 []).getD (1 + 0) (Cell.str "")) with
        | none => []
        | some m =>
          if m ≤ 0 then []
          else
            [FormatRule.gradient (1 + 1 + 0) 0 (m / 2) m 3 3,
             FormatRule.textEq (1 + 1 + 0) "N" 3 3]) :=
  formatting_rules_per_question_column
    [[Cell.str "ID", Cell.str "Q1"], [Cell.str "", Cell.num 7], [Cell.str "s1", Cell.num 3]]
    1 1 0 (by decide)

/-- C9 counterexample: the claim says a triplet is skipped exactly when its
questionId trims to the empty string. The cell holding the number zero trims
to the nonempty string 0, yet lines 99 and 161 of the source skip it,
because the JavaScript truthiness guard excludes the number zero: on this
row the triplet contributes nothing to the scan, the marks map or the
catalog. -/
theorem triplet_skip_claim_counterexample :
    jsTrim (Cell.num 0).toStr ≠ "" ∧
    processesTriplet (Cell.num 0) = false ∧
    rowTripletScan 1 1 [Cell.str "s1", Cell.num 0, Cell.num 1, Cell.num 2] = [] ∧
    buildMarksMap [Cell.str "s1", Cell.num 0, Cell.num 1, Cell.num 2] 1 1 = [] ∧
    buildCatalog [[Cell.str "s1", Cell.num 0, Cell.num 1, Cell.num 2]] 1 1 = ([], []) := by
  decide

/-- C9 amended: a triplet is skipped exactly when its questionId cell is the
empty string, the number zero, or trims to the empty string; every other
triplet is processed. The guard is characterized by those value cases, every
scan entry passes the guard, and every triplet index passing the guard
contributes its reading to the scan. -/
theorem triplet_skip_characterization :
    (∀ q : Cell, processesTriplet q = true ↔
      ((q ≠ Cell.str "" ∧ q ≠ Cell.num 0) ∧ jsTrim q.toStr ≠ "")) ∧
    (∀ (row : List Cell) (fixedColumns tripletCount : Nat),
      ∀ trip ∈ rowTripletScan fixedColumns tripletCount row,
        processesTriplet trip.1 = true) ∧
    (∀ (row : List Cell) (fixedColumns tripletCount t : Nat), t < tripletCount →
      processesTriplet (tripletAt row fixedColumns t).1 = true →
        tripletAt row fixedColumns t ∈ rowTripletScan fixedColumns tripletCount row) := by
  refine ⟨?_, ?_, ?_⟩
  · intro q
    cases q with
    | str s => simp [processesTriplet, Cell.truthy, Cell.toStr]
    | num q => simp [processesTriplet, Cell.truthy, Cell.toStr]
  · intro row fixedColumns tripletCount trip htrip
    unfold rowTripletScan at htrip
    obtain ⟨t, ht, hsome⟩ := List.mem_filterMap.mp htrip
    by_cases hp : processesTriplet (tripletAt row fixedColumns t).1 = true
    · rw [if_pos hp] at hsome
      injection hsome with hh
      rw [← hh]
      exact hp
    · rw [if_neg (by simpa using hp)] at hsome
      exact Option.noConfusion hsome
  · intro row fixedColumns tripletCount t ht hp
    unfold rowTripletScan
    exact List.mem_filterMap.mpr ⟨t, List.mem_range.mpr ht, by rw [if_pos hp]⟩

/-- The worked scenario of the specification: a one-row source with two
triplets produces the two header rows and the transposed data row. -/
example :
    rearrangeOutputRows
      [[Cell.str "ID", Cell.str "QuestionNum", Cell.str "Mark", Cell.str "MaxMark",
        Cell.str "QuestionNum", Cell.str "Mark", Cell.str "MaxMark"],
       [Cell.str "s1", Cell.str "Q1", Cell.num 5, Cell.num 10,
        Cell.str "Q2", Cell.num 3, Cell.num 5]] 1 2 =
      [[Cell.str "ID", Cell.str "Q1", Cell.str "Q2"],
       [Cell.str "", Cell.num 10, Cell.num 5],
       [Cell.str "s1", Cell.num 5, Cell.num 3]] := by decide

end Wjec
